import Mathlib

/-!
Verification of the braze-eppo feature-flag integration service.

The development shallowly embeds the three service modules of the repository:
`services/eppoService.js` (assignment tracking around the Eppo SDK),
`hightouchService.js` (audience lookup and attribute enrichment) and
`brazeService.js` (campaign dispatch).  JavaScript objects are modelled as
ordered association lists over `String` keys, JavaScript primitive values as
the inductive `JVal`, and the truthiness-based `||` operator as `jsOr`.
External calls (the Eppo SDK, axios) are modelled by explicit outcome
parameters; a thrown exception is an `Except.error` outcome.
-/

set_option maxRecDepth 40000

/-- A JavaScript primitive value as it occurs in attribute maps: a string,
a number, a boolean, or null.  An absent (undefined) value is modelled by
`Option JVal` being `none` at the use site. -/
inductive JVal where
  | str : String → JVal
  | num : Int → JVal
  | bool : Bool → JVal
  | null : JVal
deriving DecidableEq, Repr

/-- JavaScript truthiness of a defined value: empty strings, zero, `false`
and `null` are falsy, everything else is truthy. -/
def truthy : JVal → Bool
  | .str s => decide ¬(s = "")
  | .num n => decide ¬(n = 0)
  | .bool b => b
  | .null => false

/-- Truthiness of a possibly undefined value: `undefined` is falsy. -/
def truthyOpt : Option JVal → Bool
  | some v => truthy v
  | none => false

/-- The JavaScript `||` operator on possibly undefined values: the left
operand is returned when truthy, otherwise the right operand is returned
unchanged (it may itself be falsy or undefined). -/
def jsOr (a b : Option JVal) : Option JVal :=
  match a with
  | some v => if truthy v then some v else b
  | none => b

/-- The `||` operator specialised to string-or-absent values with a string
fallback, as used for `assignment.flagKey || ...` in the event sink: an
absent or empty string falls through to the fallback. -/
def jsStrOr (a : Option String) (b : String) : String :=
  match a with
  | some s => if s = "" then b else s
  | none => b

section AList

variable {β : Type}

/-- Key membership in an association list with string keys. -/
def hasK : List (String × β) → String → Bool
  | [], _ => false
  | p :: m, k => if p.1 = k then true else hasK m k

/-- Lookup of the first entry with the given key (`Map.get` on a map with
unique keys, or JavaScript property access). -/
def aget : List (String × β) → String → Option β
  | [], _ => none
  | p :: m, k => if p.1 = k then some p.2 else aget m k

/-- `Map.set` / object property assignment: update the existing entry in
place, preserving insertion order, or append a fresh entry at the end. -/
def aset (m : List (String × β)) (k : String) (v : β) : List (String × β) :=
  if hasK m k then m.map (fun p => if p.1 = k then (k, v) else p)
  else m ++ [(k, v)]

/-- `Map.delete` / `delete obj[k]`: remove the entries with the given key. -/
def adel : List (String × β) → String → List (String × β)
  | [], _ => []
  | p :: m, k => if p.1 = k then adel m k else p :: adel m k

end AList

/-! ### JavaScript objects -/

/-- A JavaScript object: an ordered list of fields.  A field value of `none`
models a property that is present but `undefined` (as produced by object
literals such as `country: existingAttributes.country` when the right hand
side is undefined). -/
abbrev JObj := List (String × Option JVal)

/-- Property access `o.k`: an absent key and a present-but-undefined key
both read as undefined. -/
def JObj.getv (o : JObj) (k : String) : Option JVal :=
  match aget o k with
  | some v => v
  | none => none

/-- The field filter used by the cleanup loop of
`getEnrichedUserAttributes`: keep a field only when its value is defined
and not null. -/
def keepField (p : String × Option JVal) : Bool :=
  match p.2 with
  | some v => decide ¬(v = JVal.null)
  | none => false

/-- The cleanup loop at the end of `getEnrichedUserAttributes`: remove
every key whose value is undefined or null. -/
def objClean (o : JObj) : JObj :=
  o.filter keepField

/-- Building an object literal from a spread base: apply each explicit
field in order, overriding spread entries in place. -/
def spreadInto (base : JObj) (fields : List (String × Option JVal)) : JObj :=
  fields.foldl (fun o kv => aset o kv.1 kv.2) base

/-- The value the cleanup loop leaves visible for a field that held `v`
before cleanup: null and undefined become absent. -/
def cleanVal : Option JVal → Option JVal
  | some w => if w = JVal.null then none else some w
  | none => none

/-- Every entry of `o` under key `k` carries value `v`. -/
def keyVals (o : JObj) (k : String) (v : Option JVal) : Prop :=
  ∀ p ∈ o, p.1 = k → p.2 = v

/-- A possibly undefined value that is either absent or a boolean, the
well-typed usage of the explicit flag attributes. -/
def boolish : Option JVal → Bool
  | none => true
  | some (.bool _) => true
  | some _ => false

/-! ### hightouchService.js -/

/-- The record shape returned by the Hightouch personalization API for a
found user, as read by `getUserAudiences`. -/
structure HtUserData where
  audiencesField : Option JObj
  lifetime_value : Option JVal
  churn_risk : Option JVal
  tier : Option JVal
  subscription_status : Option JVal
  custom_attributes : JObj
deriving DecidableEq

/-- The normalized result of `HightouchService.getUserAudiences`.  The
`found` field is optional because the unconfigured early return omits it
(reading it then yields undefined, which is falsy). -/
structure AudienceResult where
  audiences : JObj
  attributes : JObj
  found : Option Bool
  errorMsg : Option String
deriving DecidableEq

/-- The possible outcomes of the audience lookup call: the API key is not
configured, the GET succeeds with a user record, or axios throws (a 404
response, another HTTP error status, or a transport failure or timeout
with no response status). -/
inductive HtOutcome where
  | unconfigured : HtOutcome
  | success : HtUserData → HtOutcome
  | failure : Option Nat → String → HtOutcome
deriving DecidableEq

/-- The attributes object `getUserAudiences` builds for a found user:
four named fields spread together with `custom_attributes`. -/
def htAttributes (ud : HtUserData) : JObj :=
  spreadInto
    [("lifetime_value", ud.lifetime_value),
     ("churn_risk", ud.churn_risk),
     ("tier", ud.tier),
     ("subscription_status", ud.subscription_status)]
    ud.custom_attributes

/-- `HightouchService.getUserAudiences`: unconfigured keys skip the lookup
and return empty data with no `found` field; a success extracts
`_audiences` (defaulting to an empty object) and the attribute record; a
404 maps to `found: false`; any other error is swallowed and also returns
empty data with `found: false` plus the error message. -/
def getUserAudiences : HtOutcome → AudienceResult
  | .unconfigured => ⟨[], [], none, none⟩
  | .success ud => ⟨ud.audiencesField.getD [], htAttributes ud, some true, none⟩
  | .failure status message =>
      if status = some 404 then ⟨[], [], some false, none⟩
      else ⟨[], [], some false, some message⟩

/-- The `premium_subscriber` fallback chain of
`getEnrichedUserAttributes`, a JavaScript `||` cascade ending in `false`. -/
def psChain (a : JObj) : Option JVal :=
  jsOr (a.getv "premium_subscriber") <|
  jsOr (a.getv "isPremium") <|
  jsOr (some (.bool (decide (a.getv "subscription_tier" = some (.str "premium"))))) <|
  jsOr (some (.bool (decide (a.getv "subscriptionTier" = some (.str "premium")))))
    (some (.bool false))

/-- The `high_value_customer` fallback chain. -/
def hvChain (a : JObj) : Option JVal :=
  jsOr (a.getv "high_value_customer") <|
  jsOr (a.getv "isHighValue") <|
  jsOr (some (.bool (decide (a.getv "subscription_tier" = some (.str "premium"))))) <|
  jsOr (some (.bool (decide (a.getv "subscriptionTier" = some (.str "premium")))))
    (some (.bool false))

/-- The `at_risk_churn` fallback chain. -/
def arChain (a : JObj) : Option JVal :=
  jsOr (a.getv "at_risk_churn") <|
  jsOr (a.getv "isAtRisk") <|
  jsOr (some (.bool (decide (a.getv "subscription_tier" = some (.str "free"))))) <|
  jsOr (some (.bool (decide (a.getv "subscriptionTier" = some (.str "free")))))
    (some (.bool false))

/-- The `subscription_tier` pass-through chain: first of
`subscription_tier`, `subscriptionTier`, `tier` under `||`. -/
def tierChain (a : JObj) : Option JVal :=
  jsOr (a.getv "subscription_tier") <| jsOr (a.getv "subscriptionTier") (a.getv "tier")

/-- The `user_segment` pass-through chain: first of `user_segment`,
`segment` under `||`. -/
def segChain (a : JObj) : Option JVal :=
  jsOr (a.getv "user_segment") (a.getv "segment")

/-- The explicit fields of the fallback-branch object literal of
`getEnrichedUserAttributes`, in source order. -/
def fallbackFields (a : JObj) : List (String × Option JVal) :=
  [("premium_subscriber", psChain a),
   ("high_value_customer", hvChain a),
   ("at_risk_churn", arChain a),
   ("subscription_tier", tierChain a),
   ("user_segment", segChain a),
   ("country", a.getv "country"),
   ("device_type", a.getv "device_type"),
   ("_attribute_source", some (.str "browser"))]

/-- The fallback branch of `getEnrichedUserAttributes`: spread the
existing attributes, apply the explicit fields, then run the cleanup loop
that strips undefined and null values. -/
def fallbackEnrich (a : JObj) : JObj :=
  objClean (spreadInto a (fallbackFields a))

/-- The explicit audience flag fields of the primary (Hightouch data)
branch: each flag is the strict comparison `audiences.flag === true`. -/
def primaryFields (audiences : JObj) : List (String × Option JVal) :=
  [("premium_subscriber", some (.bool (decide (audiences.getv "premium_subscriber" = some (.bool true))))),
   ("high_value_customer", some (.bool (decide (audiences.getv "high_value_customer" = some (.bool true))))),
   ("at_risk_churn", some (.bool (decide (audiences.getv "at_risk_churn" = some (.bool true)))))]

/-- `HightouchService.getEnrichedUserAttributes`: when the lookup found
the user and returned at least one audience, merge existing attributes,
provider attributes and the audience flags; otherwise derive everything
from the existing attributes (fallback branch).  Both branches end in the
cleanup loop. -/
def getEnrichedUserAttributes (o : HtOutcome) (a : JObj) : JObj :=
  let r := getUserAudiences o
  if (match r.found with | some b => b | none => false) && !r.audiences.isEmpty then
    objClean (spreadInto (spreadInto a r.attributes) (primaryFields r.audiences))
  else
    fallbackEnrich a

/-! ### brazeService.js -/

/-- The Braze service credentials read from the environment at
construction time.  A present empty string is falsy just like an absent
variable. -/
structure BrazeConfig where
  apiKey : Option String
  restEndpoint : Option String
  appId : Option String
deriving DecidableEq

/-- Falsiness of an optional environment string: absent or empty. -/
def strFalsy : Option String → Bool
  | some s => decide (s = "")
  | none => true

/-- An HTTP response as seen through axios: a body and a status code. -/
structure HttpResponse where
  data : JVal
  status : Nat
deriving DecidableEq

/-- An axios error: the response is present for HTTP-status failures and
absent for transport failures and timeouts. -/
structure AxiosErr where
  response : Option HttpResponse
  message : String
deriving DecidableEq

/-- The outcome of one outbound axios call. -/
abbrev HttpOutcome := Except AxiosErr HttpResponse

/-- An error thrown by a BrazeService operation: the fail-fast
configuration error, the raw re-thrown axios error, or the normalized
`new Error("Request failed with status code ...")` built by
`triggerCampaign`. -/
inductive BrazeErr where
  | config : String → BrazeErr
  | raw : AxiosErr → BrazeErr
  | normalized : String → BrazeErr
deriving DecidableEq

/-- Whether a thrown error is the normalized request error. -/
def isNormalizedErr : BrazeErr → Bool
  | .normalized _ => true
  | _ => false

/-- The error thrown by an operation result, if any. -/
def thrownOf {α : Type} : Except BrazeErr α → Option BrazeErr
  | .error e => some e
  | .ok _ => none

/-- `BrazeService.sendMessage`: fail fast on missing credentials, return
the raw axios response on success, log and re-throw the raw error on
failure. -/
def sendMessage (cfg : BrazeConfig) (outcome : HttpOutcome) :
    Except BrazeErr HttpResponse :=
  if strFalsy cfg.apiKey || strFalsy cfg.restEndpoint then
    .error (.config "Braze API configuration missing. Check BRAZE_API_KEY and BRAZE_REST_ENDPOINT")
  else
    match outcome with
    | .ok r => .ok r
    | .error e => .error (.raw e)

/-- `BrazeService.trackEvent`: same control flow as `sendMessage`. -/
def trackEvent (cfg : BrazeConfig) (outcome : HttpOutcome) :
    Except BrazeErr HttpResponse :=
  if strFalsy cfg.apiKey || strFalsy cfg.restEndpoint then
    .error (.config "Braze API configuration missing. Check BRAZE_API_KEY and BRAZE_REST_ENDPOINT")
  else
    match outcome with
    | .ok r => .ok r
    | .error e => .error (.raw e)

/-- `BrazeService.updateUserAttributes`: same control flow as
`sendMessage`. -/
def updateUserAttributes (cfg : BrazeConfig) (outcome : HttpOutcome) :
    Except BrazeErr HttpResponse :=
  if strFalsy cfg.apiKey || strFalsy cfg.restEndpoint then
    .error (.config "Braze API configuration missing. Check BRAZE_API_KEY and BRAZE_REST_ENDPOINT")
  else
    match outcome with
    | .ok r => .ok r
    | .error e => .error (.raw e)

/-- `BrazeService.triggerCanvas`: same control flow as `sendMessage`. -/
def triggerCanvas (cfg : BrazeConfig) (outcome : HttpOutcome) :
    Except BrazeErr HttpResponse :=
  if strFalsy cfg.apiKey || strFalsy cfg.restEndpoint then
    .error (.config "Braze API configuration missing. Check BRAZE_API_KEY and BRAZE_REST_ENDPOINT")
  else
    match outcome with
    | .ok r => .ok r
    | .error e => .error (.raw e)

/-- `BrazeService.triggerCampaign`: additionally requires a campaign id,
returns `response.data` on success, and on failure throws the normalized
error carrying the upstream status when a response is present and the
word `unknown` otherwise. -/
def triggerCampaign (cfg : BrazeConfig) (campaignId : Option String)
    (outcome : HttpOutcome) : Except BrazeErr JVal :=
  if strFalsy cfg.apiKey || strFalsy cfg.restEndpoint || strFalsy campaignId then
    .error (.config "Braze API configuration or campaignId is missing.")
  else
    match outcome with
    | .ok r => .ok r.data
    | .error e =>
        .error (.normalized ("Request failed with status code " ++
          (match e.response with
           | some resp => toString resp.status
           | none => "unknown")))

/-! ### services/eppoService.js -/

/-- The record stored in `recentAssignments`: the spread of the provider
event payload with the effective `flagKey` and a `timestamp` forced onto
it.  The original `subject` of the payload is kept as is (possibly
absent); `payload` carries the remaining event fields (variation,
allocation, experiment, ...). -/
structure StoredAssignment where
  subject : Option String
  flagKey : String
  timestamp : String
  payload : List (String × JVal)
deriving DecidableEq

/-- An assignment event payload as delivered by the Eppo SDK to the
registered `assignmentLogger`. -/
structure EppoEvent where
  flagKey : Option String
  subject : Option String
  timestamp : Option String
  payload : List (String × JVal)
deriving DecidableEq

/-- The per-call request context stored in `this.currentRequest`. -/
structure ReqCtx where
  flagKey : String
  userId : String
  userAttributes : JObj
deriving DecidableEq

/-- The map held in `this.recentAssignments`. -/
abbrev Cache := List (String × StoredAssignment)

/-- The mutable state of the `EppoService` singleton. -/
structure EppoState where
  hasClient : Bool
  initialized : Bool
  recentAssignments : Cache
  assignmentLoggerCalled : Bool
  currentRequest : Option ReqCtx
deriving DecidableEq

/-- The state built by the `EppoService` constructor. -/
def initialEppoState : EppoState :=
  { hasClient := false, initialized := false, recentAssignments := [],
    assignmentLoggerCalled := false, currentRequest := none }

/-- The effective flag key resolved by the event sink:
`assignment.flagKey || (this.currentRequest ? this.currentRequest.flagKey : 'unknown')`. -/
def effFlagKey (s : EppoState) (ev : EppoEvent) : String :=
  jsStrOr ev.flagKey
    (match s.currentRequest with
     | some cr => cr.flagKey
     | none => "unknown")

/-- The effective subject resolved by the event sink:
`assignment.subject || (this.currentRequest ? this.currentRequest.userId : 'unknown')`. -/
def effSubject (s : EppoState) (ev : EppoEvent) : String :=
  jsStrOr ev.subject
    (match s.currentRequest with
     | some cr => cr.userId
     | none => "unknown")

/-- The storage key built by the event sink: the template literal
`subject:flagKey`. -/
def storeKey (s : EppoState) (ev : EppoEvent) : String :=
  effSubject s ev ++ ":" ++ effFlagKey s ev

/-- The record built by the event sink:
`{...assignment, flagKey, timestamp: assignment.timestamp || now}`. -/
def storeRec (s : EppoState) (ev : EppoEvent) (now : String) : StoredAssignment :=
  { subject := ev.subject, flagKey := effFlagKey s ev,
    timestamp := jsStrOr ev.timestamp now, payload := ev.payload }

/-- The bounded-size cleanup of the event sink: when the map holds more
than 100 entries after the insertion, delete the first key in insertion
order. -/
def evict (m : Cache) : Cache :=
  if m.length > 100 then
    match m with
    | [] => []
    | p :: _ => adel m p.1
  else m

/-- The `logAssignment` event sink registered at SDK initialization:
mark the logger as called, resolve the effective key and subject, upsert
the record and apply the bounded-size cleanup. -/
def logAssignment (s : EppoState) (ev : EppoEvent) (now : String) : EppoState :=
  { s with
    assignmentLoggerCalled := true,
    recentAssignments :=
      evict (aset s.recentAssignments (storeKey s ev) (storeRec s ev now)) }

/-- The behaviour of one `client.getStringAssignment` call: the list of
events the SDK delivers synchronously to the sink during the call, and
the returned assignment (or a thrown exception as `Except.error`). -/
structure Provider where
  events : List EppoEvent
  result : Except String (Option String)

/-- The state just before the provider call inside `getAssignment`: the
logger-called flag is reset and the request context is stored. -/
def providerEntryState (s : EppoState) (flagKey userId : String)
    (attrs : JObj) : EppoState :=
  { s with assignmentLoggerCalled := false,
           currentRequest := some ⟨flagKey, userId, attrs⟩ }

/-- Deliver the provider events to the sink in order. -/
def runEvents (s : EppoState) (events : List EppoEvent) (now : String) : EppoState :=
  events.foldl (fun st ev => logAssignment st ev now) s

/-- The primary lookup key of `getAssignment`: `userId:flagKey`. -/
def lookupKey (userId flagKey : String) : String :=
  userId ++ ":" ++ flagKey

/-- The secondary lookup key of `getAssignment`: the literal
`userId:undefined` produced when the event sink stringified an undefined
flag key. -/
def undefinedKey (userId : String) : String :=
  userId ++ ":undefined"

/-- The synthesized fallback details record with its debug block. -/
structure FallbackDetails where
  flagKey : String
  allocation : Option JVal
  variation : Option String
  subject : String
  experiment : Option JVal
  featureFlag : Option JVal
  timestamp : String
  loggerFired : Bool
  storedCount : Nat
  lookupKeyUsed : String
  note : String
deriving DecidableEq

/-- The `assignmentDetails` of a successful `getAssignment` result:
either a record taken from the cache (possibly with the flag key
corrected) or the synthesized fallback record. -/
inductive Details where
  | stored : StoredAssignment → Details
  | fallback : FallbackDetails → Details
deriving DecidableEq

/-- The `clientInfo` block of a successful result. -/
structure ClientInfo where
  initialized : Bool
  hasClient : Bool
  sdkVersion : String
deriving DecidableEq

/-- The value returned by `getAssignment`.  `initializedField` models the
top-level `initialized: false` key present only in the not-initialized
early return; `errorMsg` models the `error` key of the catch-path
return. -/
structure EppoResult where
  assignment : Option String
  flagKey : String
  userId : String
  userAttributes : JObj
  assignmentDetails : Option Details
  initializedField : Option Bool
  errorMsg : Option String
  clientInfo : Option ClientInfo
  timestamp : String
deriving DecidableEq

/-- `EppoService.getAssignment`.  The external SDK call is modelled by
`prov`; `now` stands for `new Date().toISOString()`.  The function
returns the result together with the service state after the call. -/
def getAssignment (s : EppoState) (flagKey userId : String) (attrs : JObj)
    (prov : Provider) (now : String) : EppoResult × EppoState :=
  if !s.hasClient || !s.initialized then
    ({ assignment := none, flagKey := flagKey, userId := userId,
       userAttributes := attrs, assignmentDetails := none,
       initializedField := some false, errorMsg := none, clientInfo := none,
       timestamp := now }, s)
  else
    let s1 := providerEntryState s flagKey userId attrs
    let s2 := runEvents s1 prov.events now
    match prov.result with
    | .error e =>
        ({ assignment := none, flagKey := flagKey, userId := userId,
           userAttributes := attrs, assignmentDetails := none,
           initializedField := none, errorMsg := some e, clientInfo := none,
           timestamp := now }, s2)
    | .ok assignment =>
        let aKey := lookupKey userId flagKey
        let found :=
          match aget s2.recentAssignments aKey with
          | some d => (some (Details.stored d), s2)
          | none =>
              match aget s2.recentAssignments (undefinedKey userId) with
              | some st0 =>
                  let d := { st0 with flagKey := flagKey }
                  (some (Details.stored d),
                   { s2 with recentAssignments := adel (aset s2.recentAssignments aKey d) (undefinedKey userId) })
              | none => (none, s2)
        let details := found.1
        let s3 := found.2
        let fb : FallbackDetails :=
          { flagKey := flagKey, allocation := none, variation := assignment,
            subject := userId, experiment := none, featureFlag := none,
            timestamp := now, loggerFired := s3.assignmentLoggerCalled,
            storedCount := s3.recentAssignments.length, lookupKeyUsed := aKey,
            note :=
              if s3.assignmentLoggerCalled then
                "Logger fired but assignment not found in storage"
              else
                "Assignment logger did not fire - may be cached or default assignment" }
        let s4 := { s3 with currentRequest := none }
        ({ assignment := assignment, flagKey := flagKey, userId := userId,
           userAttributes := attrs,
           assignmentDetails := some (match details with
             | some d => d
             | none => Details.fallback fb),
           initializedField := none, errorMsg := none,
           clientInfo := some { initialized := s.initialized,
                                hasClient := s.hasClient,
                                sdkVersion := "node-server-sdk-3.11.0" },
           timestamp := now }, s4)

/-- `EppoService.getBooleanAssignment`: delegate to the typed SDK call,
returning the caller default when not initialized or when the call
throws.  The service state is returned unchanged alongside. -/
def getBooleanAssignment (s : EppoState) (flagKey userId : String)
    (attrs : JObj) (defaultValue : Bool) (prov : Except String Bool) :
    Bool × EppoState :=
  if !s.hasClient || !s.initialized then (defaultValue, s)
  else
    match prov with
    | .ok b => (b, s)
    | .error _ => (defaultValue, s)

/-- `EppoService.getNumericAssignment`: same shape as
`getBooleanAssignment` with a numeric default. -/
def getNumericAssignment (s : EppoState) (flagKey userId : String)
    (attrs : JObj) (defaultValue : Int) (prov : Except String Int) :
    Int × EppoState :=
  if !s.hasClient || !s.initialized then (defaultValue, s)
  else
    match prov with
    | .ok n => (n, s)
    | .error _ => (defaultValue, s)

/-! ### Concrete eviction scenario -/

/-- A fresh assignment event for the capacity scenario. -/
def scEvent (i : Nat) : EppoEvent :=
  { flagKey := some ("f" ++ toString i), subject := some ("u" ++ toString i),
    timestamp := some "ts", payload := [] }

/-- An initialized tracker state with an empty cache. -/
def scState0 : EppoState :=
  { hasClient := true, initialized := true, recentAssignments := [],
    assignmentLoggerCalled := false, currentRequest := none }

/-- The state after the sink has stored the first three events A, B, C. -/
def scAfterABC : EppoState :=
  runEvents scState0 ((List.range 3).map scEvent) "now"

/-- The read of entry A performed after A, B, C are stored. -/
def scReadA : Option StoredAssignment :=
  aget scAfterABC.recentAssignments "u0:f0"

/-- The state after 98 further fresh events push the map past its
capacity of 100. -/
def scFinal : EppoState :=
  runEvents scAfterABC ((List.range 98).map (fun i => scEvent (i + 3))) "now"

/-! ### Lemmas about the association list operations -/

section AList

variable {β : Type}
theorem aget_aset_self (m : List (String × β)) (k : String) (v : β) :
    aget (aset m k v) k = some v := by
  unfold aset
  split
  · rename_i h
    induction m with
    | nil => simp [hasK] at h
    | cons p t ih =>
      by_cases hp : p.1 = k
      · simp [aget, hp]
      · simp only [List.map_cons, if_neg hp]
        rw [aget]
        simp only [if_neg hp]
        exact ih (by simpa [hasK, hp] using h)
  · induction m with
    | nil => simp [aget]
    | cons p t ih =>
      rename_i h
      rw [hasK] at h
      by_cases hp : p.1 = k
      · simp [hp] at h
      · simp only [List.cons_append]
        rw [aget]
        simp only [if_neg hp]
        exact ih (by simpa [hp] using h)

theorem aget_map_update_ne (m : List (String × β)) (k k' : String) (v : β)
    (h : k' ≠ k) :
    aget (m.map (fun p => if p.1 = k then (k, v) else p)) k' = aget m k' := by
  induction m with
  | nil => simp [aget]
  | cons p t ih =>
    by_cases hp : p.1 = k
    · have hp' : ¬ p.1 = k' := by rw [hp]; exact fun he => h he.symm
      rw [List.map_cons, if_pos hp, aget, aget, if_neg hp',
        if_neg (fun he => h he.symm)]
      exact ih
    · rw [List.map_cons, if_neg hp, aget, aget]
      by_cases hp' : p.1 = k'
      · simp [hp']
      · rw [if_neg hp', if_neg hp']
        exact ih

theorem aget_append_single_ne (m : List (String × β)) (k k' : String) (v : β)
    (h : k' ≠ k) : aget (m ++ [(k, v)]) k' = aget m k' := by
  induction m with
  | nil => simp [aget, Ne.symm h]
  | cons p t ih =>
    rw [List.cons_append, aget, aget]
    by_cases hp' : p.1 = k'
    · simp [hp']
    · rw [if_neg hp', if_neg hp']
      exact ih

theorem aget_aset_ne (m : List (String × β)) (k k' : String) (v : β)
    (h : k' ≠ k) : aget (aset m k v) k' = aget m k' := by
  unfold aset
  split
  · exact aget_map_update_ne m k k' v h
  · exact aget_append_single_ne m k k' v h

theorem aget_adel_self (m : List (String × β)) (k : String) :
    aget (adel m k) k = none := by
  induction m with
  | nil => simp [adel, aget]
  | cons p t ih =>
    rw [adel]
    by_cases hp : p.1 = k
    · simpa [hp] using ih
    · rw [if_neg hp, aget, if_neg hp]
      exact ih

theorem aget_adel_ne (m : List (String × β)) (k k' : String) (h : k' ≠ k) :
    aget (adel m k) k' = aget m k' := by
  induction m with
  | nil => simp [adel]
  | cons p t ih =>
    rw [adel, aget]
    by_cases hp : p.1 = k
    · have hp' : ¬ p.1 = k' := by rw [hp]; exact fun he => h he.symm
      rw [if_pos hp, if_neg hp']
      exact ih
    · rw [if_neg hp, aget]
      by_cases hp' : p.1 = k'
      · simp [hp']
      · simp only [if_neg hp']
        exact ih

theorem hasK_false_of_aget_none (m : List (String × β)) (k : String)
    (h : aget m k = none) : hasK m k = false := by
  induction m with
  | nil => rfl
  | cons p t ih =>
    rw [aget] at h
    rw [hasK]
    by_cases hp : p.1 = k
    · simp [hp] at h
    · rw [if_neg hp]
      exact ih (by simpa [hp] using h)

theorem aset_eq_append (m : List (String × β)) (k : String) (v : β)
    (h : hasK m k = false) : aset m k v = m ++ [(k, v)] := by
  simp [aset, h]

theorem adel_eq_self (m : List (String × β)) (k : String)
    (h : hasK m k = false) : adel m k = m := by
  induction m with
  | nil => rfl
  | cons p t ih =>
    rw [hasK] at h
    by_cases hp : p.1 = k
    · simp [hp] at h
    · rw [adel, if_neg hp, ih (by simpa [hp] using h)]

theorem adel_append (l₁ l₂ : List (String × β)) (k : String) :
    adel (l₁ ++ l₂) k = adel l₁ k ++ adel l₂ k := by
  induction l₁ with
  | nil => simp [adel]
  | cons p t ih =>
    rw [List.cons_append, adel, adel]
    by_cases hp : p.1 = k
    · simp [hp, ih]
    · simp [hp, ih]

theorem length_adel_le (m : List (String × β)) (k : String) :
    (adel m k).length ≤ m.length := by
  induction m with
  | nil => simp [adel]
  | cons p t ih =>
    rw [adel]
    by_cases hp : p.1 = k
    · rw [if_pos hp]
      exact Nat.le_succ_of_le ih
    · rw [if_neg hp]
      simpa using ih

end AList

theorem hasK_of_mem {β : Type} (m : List (String × β)) (k : String)
    (p : String × β) (hp : p ∈ m) (hk : p.1 = k) : hasK m k = true := by
  induction m with
  | nil => cases hp
  | cons q t ih =>
    rw [hasK]
    rcases List.mem_cons.mp hp with rfl | hmem
    · rw [if_pos hk]
    · by_cases hq : q.1 = k
      · rw [if_pos hq]
      · rw [if_neg hq]
        exact ih hmem

theorem hasK_of_aget_some {β : Type} (m : List (String × β)) (k : String)
    (v : β) (h : aget m k = some v) : hasK m k = true := by
  induction m with
  | nil => simp [aget] at h
  | cons q t ih =>
    rw [aget] at h
    rw [hasK]
    by_cases hq : q.1 = k
    · rw [if_pos hq]
    · rw [if_neg hq] at h ⊢
      exact ih h

theorem keyVals_aset_self (o : JObj) (k : String) (v : Option JVal) :
    keyVals (aset o k v) k v := by
  unfold aset
  split
  · intro p hp _
    rcases List.mem_map.mp hp with ⟨q, _, hfq⟩
    by_cases hq : q.1 = k
    · rw [if_pos hq] at hfq
      rw [← hfq]
    · rw [if_neg hq] at hfq
      subst hfq
      rename_i hk
      exact absurd hk hq
  · rename_i hno
    intro p hp hk
    rcases List.mem_append.mp hp with h | h
    · exact absurd (hasK_of_mem o k p h hk) hno
    · rcases List.mem_singleton.mp h with rfl
      rfl

theorem hasK_aset_self (o : JObj) (k : String) (v : Option JVal) :
    hasK (aset o k v) k = true :=
  hasK_of_aget_some _ k v (aget_aset_self o k v)

theorem getv_nil (k : String) : JObj.getv [] k = none := rfl

theorem getv_cons (p : String × Option JVal) (t : JObj) (k : String) :
    JObj.getv (p :: t) k = if p.1 = k then p.2 else JObj.getv t k := by
  by_cases hp : p.1 = k <;> simp [JObj.getv, aget, hp]

theorem keyVals_aset_ne (o : JObj) (k k' : String) (v w : Option JVal)
    (hne : k' ≠ k) (h : keyVals o k v) : keyVals (aset o k' w) k v := by
  unfold aset
  split
  · intro p hp hk
    rcases List.mem_map.mp hp with ⟨q, hqmem, hfq⟩
    by_cases hq : q.1 = k'
    · rw [if_pos hq] at hfq
      subst hfq
      exact absurd hk hne
    · rw [if_neg hq] at hfq
      subst hfq
      exact h q hqmem hk
  · intro p hp hk
    rcases List.mem_append.mp hp with hmem | hmem
    · exact h p hmem hk
    · rcases List.mem_singleton.mp hmem with rfl
      exact absurd hk hne

theorem hasK_aset_ne (o : JObj) (k k' : String) (w : Option JVal)
    (hne : k' ≠ k) (h : hasK o k = true) : hasK (aset o k' w) k = true := by
  rcases ho : aget o k with _ | v
  · rw [hasK_false_of_aget_none o k ho] at h
    cases h
  · exact hasK_of_aget_some _ k v (by rw [aget_aset_ne o k' k w (Ne.symm hne), ho])

theorem getv_clean_of_not_hasK (o : JObj) (k : String)
    (h : hasK o k = false) : JObj.getv (objClean o) k = none := by
  induction o with
  | nil => rfl
  | cons p t ih =>
    rw [hasK] at h
    by_cases hp : p.1 = k
    · rw [if_pos hp] at h
      cases h
    · rw [if_neg hp] at h
      rw [objClean, List.filter_cons]
      cases hkeep : keepField p
      · rw [if_neg (by simp [hkeep])]
        exact ih h
      · rw [if_pos rfl, getv_cons, if_neg hp]
        exact ih h

theorem getv_clean (o : JObj) (k : String) (v : Option JVal)
    (h1 : hasK o k = true) (h2 : keyVals o k v) :
    JObj.getv (objClean o) k = cleanVal v := by
  induction o with
  | nil => cases h1
  | cons p t ih =>
    obtain ⟨pk, pv⟩ := p
    rw [hasK] at h1
    have ht2 : keyVals t k v := fun q hq hqk => h2 q (List.mem_cons_of_mem _ hq) hqk
    rw [objClean, List.filter_cons]
    by_cases hp : pk = k
    · have hv : pv = v := h2 (pk, pv) (List.mem_cons_self _ t) hp
      subst hv
      rcases pv with _ | w
      · rw [if_neg (by simp [keepField])]
        rw [cleanVal]
        by_cases ht : hasK t k = true
        · rw [← cleanVal]
          exact ih ht ht2
        · exact getv_clean_of_not_hasK t k (by simpa using ht)
      · by_cases hw : w = JVal.null
        · subst hw
          rw [if_neg (by simp [keepField])]
          rw [cleanVal, if_pos rfl]
          by_cases ht : hasK t k = true
          · have := ih ht ht2
            rwa [cleanVal, if_pos rfl] at this
          · exact getv_clean_of_not_hasK t k (by simpa using ht)
        · rw [if_pos (by simp [keepField, hw])]
          rw [getv_cons, if_pos hp, cleanVal, if_neg hw]
    · rw [if_neg hp] at h1
      cases hkeep : keepField (pk, pv)
      · rw [if_neg (by simp [hkeep])]
        exact ih h1 ht2
      · rw [if_pos rfl, getv_cons, if_neg hp]
        exact ih h1 ht2

/-! ### Structure of the literal key unknown:unknown -/

theorem append_cons_take {α : Type} (l₁ : List α) (x : α) (l₂ : List α) :
    (l₁ ++ x :: l₂).take l₁.length = l₁ := by
  induction l₁ with
  | nil => rfl
  | cons a t ih => simp [ih]

theorem append_cons_drop {α : Type} (l₁ : List α) (x : α) (l₂ : List α) :
    (l₁ ++ x :: l₂).drop (l₁.length + 1) = l₂ := by
  induction l₁ with
  | nil => rfl
  | cons a t _ => simp

theorem append_cons_getElem {α : Type} (l₁ : List α) (x : α) (l₂ : List α) :
    (l₁ ++ x :: l₂)[l₁.length]? = some x := by
  induction l₁ with
  | nil => simp
  | cons a t ih => simpa using ih

/-- Splitting the fifteen characters of `unknown:unknown` at a colon is
only possible at its single colon. -/
theorem unknown_split_chars (l₁ l₂ : List Char)
    (h : l₁ ++ ':' :: l₂ = ("unknown:unknown" : String).data) :
    l₁ = ("unknown" : String).data ∧ l₂ = ("unknown" : String).data := by
  have hlen : l₁.length + (l₂.length + 1) = 15 := by
    have := congrArg List.length h
    simpa using this
  have hb : l₁.length ≤ 14 := by omega
  have hg : (("unknown:unknown" : String).data)[l₁.length]? = some ':' := by
    rw [← h]
    exact append_cons_getElem l₁ ':' l₂
  have hix : ∀ n : Fin 15,
      ((("unknown:unknown" : String).data)[n.val]? = some ':') → n.val = 7 := by
    decide
  have h7 : l₁.length = 7 := hix ⟨l₁.length, by omega⟩ hg
  have ht : l₁ = ("unknown" : String).data := by
    have := append_cons_take l₁ ':' l₂
    rw [h, h7] at this
    rw [← this]
    decide
  have hd : l₂ = ("unknown" : String).data := by
    have := append_cons_drop l₁ ':' l₂
    rw [h, h7] at this
    rw [← this]
    decide
  exact ⟨ht, hd⟩

/-- A real lookup key never collides with `unknown:unknown` unless both
parts are literally `unknown`. -/
theorem lookupKey_ne_unknown (userId flagKey : String)
    (h : ¬(userId = "unknown" ∧ flagKey = "unknown")) :
    lookupKey userId flagKey ≠ "unknown:unknown" := by
  intro he
  apply h
  have hd : userId.data ++ ':' :: flagKey.data = ("unknown:unknown" : String).data := by
    have := congrArg String.data he
    rw [lookupKey] at this
    rw [String.data_append, String.data_append] at this
    simpa using this
  rcases unknown_split_chars _ _ hd with ⟨h1, h2⟩
  exact ⟨String.ext h1, String.ext h2⟩

/-- The secondary lookup key `userId:undefined` never equals
`unknown:unknown`. -/
theorem undefinedKey_ne_unknown (userId : String) :
    undefinedKey userId ≠ "unknown:unknown" := by
  intro he
  have hd : userId.data ++ ':' :: ("undefined" : String).data
      = ("unknown:unknown" : String).data := by
    have := congrArg String.data he
    rw [undefinedKey] at this
    rw [String.data_append] at this
    simpa using this
  rcases unknown_split_chars _ _ hd with ⟨_, h2⟩
  exact absurd h2 (by decide)

/-! ### Field lookup lemmas for the fallback enrichment -/

theorem fe_getv_ps (a : JObj) :
    JObj.getv (fallbackEnrich a) "premium_subscriber" = cleanVal (psChain a) := by
  rw [fallbackEnrich, fallbackFields, spreadInto]
  simp only [List.foldl_cons, List.foldl_nil]
  refine getv_clean _ _ _ ?_ ?_
  · apply hasK_aset_ne _ _ _ _ (by decide)
    apply hasK_aset_ne _ _ _ _ (by decide)
    apply hasK_aset_ne _ _ _ _ (by decide)
    apply hasK_aset_ne _ _ _ _ (by decide)
    apply hasK_aset_ne _ _ _ _ (by decide)
    apply hasK_aset_ne _ _ _ _ (by decide)
    apply hasK_aset_ne _ _ _ _ (by decide)
    exact hasK_aset_self _ _ _
  · apply keyVals_aset_ne _ _ _ _ _ (by decide)
    apply keyVals_aset_ne _ _ _ _ _ (by decide)
    apply keyVals_aset_ne _ _ _ _ _ (by decide)
    apply keyVals_aset_ne _ _ _ _ _ (by decide)
    apply keyVals_aset_ne _ _ _ _ _ (by decide)
    apply keyVals_aset_ne _ _ _ _ _ (by decide)
    apply keyVals_aset_ne _ _ _ _ _ (by decide)
    exact keyVals_aset_self _ _ _

theorem fe_getv_hv (a : JObj) :
    JObj.getv (fallbackEnrich a) "high_value_customer" = cleanVal (hvChain a) := by
  rw [fallbackEnrich, fallbackFields, spreadInto]
  simp only [List.foldl_cons, List.foldl_nil]
  refine getv_clean _ _ _ ?_ ?_
  · apply hasK_aset_ne _ _ _ _ (by decide)
    apply hasK_aset_ne _ _ _ _ (by decide)
    apply hasK_aset_ne _ _ _ _ (by decide)
    apply hasK_aset_ne _ _ _ _ (by decide)
    apply hasK_aset_ne _ _ _ _ (by decide)
    apply hasK_aset_ne _ _ _ _ (by decide)
    exact hasK_aset_self _ _ _
  · apply keyVals_aset_ne _ _ _ _ _ (by decide)
    apply keyVals_aset_ne _ _ _ _ _ (by decide)
    apply keyVals_aset_ne _ _ _ _ _ (by decide)
    apply keyVals_aset_ne _ _ _ _ _ (by decide)
    apply keyVals_aset_ne _ _ _ _ _ (by decide)
    apply keyVals_aset_ne _ _ _ _ _ (by decide)
    exact keyVals_aset_self _ _ _

theorem fe_getv_ar (a : JObj) :
    JObj.getv (fallbackEnrich a) "at_risk_churn" = cleanVal (arChain a) := by
  rw [fallbackEnrich, fallbackFields, spreadInto]
  simp only [List.foldl_cons, List.foldl_nil]
  refine getv_clean _ _ _ ?_ ?_
  · apply hasK_aset_ne _ _ _ _ (by decide)
    apply hasK_aset_ne _ _ _ _ (by decide)
    apply hasK_aset_ne _ _ _ _ (by decide)
    apply hasK_aset_ne _ _ _ _ (by decide)
    apply hasK_aset_ne _ _ _ _ (by decide)
    exact hasK_aset_self _ _ _
  · apply keyVals_aset_ne _ _ _ _ _ (by decide)
    apply keyVals_aset_ne _ _ _ _ _ (by decide)
    apply keyVals_aset_ne _ _ _ _ _ (by decide)
    apply keyVals_aset_ne _ _ _ _ _ (by decide)
    apply keyVals_aset_ne _ _ _ _ _ (by decide)
    exact keyVals_aset_self _ _ _

theorem fe_getv_tier (a : JObj) :
    JObj.getv (fallbackEnrich a) "subscription_tier" = cleanVal (tierChain a) := by
  rw [fallbackEnrich, fallbackFields, spreadInto]
  simp only [List.foldl_cons, List.foldl_nil]
  refine getv_clean _ _ _ ?_ ?_
  · apply hasK_aset_ne _ _ _ _ (by decide)
    apply hasK_aset_ne _ _ _ _ (by decide)
    apply hasK_aset_ne _ _ _ _ (by decide)
    apply hasK_aset_ne _ _ _ _ (by decide)
    exact hasK_aset_self _ _ _
  · apply keyVals_aset_ne _ _ _ _ _ (by decide)
    apply keyVals_aset_ne _ _ _ _ _ (by decide)
    apply keyVals_aset_ne _ _ _ _ _ (by decide)
    apply keyVals_aset_ne _ _ _ _ _ (by decide)
    exact keyVals_aset_self _ _ _

theorem fe_getv_segment (a : JObj) :
    JObj.getv (fallbackEnrich a) "user_segment" = cleanVal (segChain a) := by
  rw [fallbackEnrich, fallbackFields, spreadInto]
  simp only [List.foldl_cons, List.foldl_nil]
  refine getv_clean _ _ _ ?_ ?_
  · apply hasK_aset_ne _ _ _ _ (by decide)
    apply hasK_aset_ne _ _ _ _ (by decide)
    apply hasK_aset_ne _ _ _ _ (by decide)
    exact hasK_aset_self _ _ _
  · apply keyVals_aset_ne _ _ _ _ _ (by decide)
    apply keyVals_aset_ne _ _ _ _ _ (by decide)
    apply keyVals_aset_ne _ _ _ _ _ (by decide)
    exact keyVals_aset_self _ _ _

theorem fe_getv_country (a : JObj) :
    JObj.getv (fallbackEnrich a) "country" = cleanVal (a.getv "country") := by
  rw [fallbackEnrich, fallbackFields, spreadInto]
  simp only [List.foldl_cons, List.foldl_nil]
  refine getv_clean _ _ _ ?_ ?_
  · apply hasK_aset_ne _ _ _ _ (by decide)
    apply hasK_aset_ne _ _ _ _ (by decide)
    exact hasK_aset_self _ _ _
  · apply keyVals_aset_ne _ _ _ _ _ (by decide)
    apply keyVals_aset_ne _ _ _ _ _ (by decide)
    exact keyVals_aset_self _ _ _

theorem fe_getv_device (a : JObj) :
    JObj.getv (fallbackEnrich a) "device_type" = cleanVal (a.getv "device_type") := by
  rw [fallbackEnrich, fallbackFields, spreadInto]
  simp only [List.foldl_cons, List.foldl_nil]
  refine getv_clean _ _ _ ?_ ?_
  · apply hasK_aset_ne _ _ _ _ (by decide)
    exact hasK_aset_self _ _ _
  · apply keyVals_aset_ne _ _ _ _ _ (by decide)
    exact keyVals_aset_self _ _ _

theorem boolish_elim (x : Option JVal) (h : boolish x = true) :
    x = none ∨ ∃ b, x = some (.bool b) := by
  rcases x with _ | (s | n | b | _)
  · exact Or.inl rfl
  · simp [boolish] at h
  · simp [boolish] at h
  · exact Or.inr ⟨b, rfl⟩
  · simp [boolish] at h

/-- The common shape of the three boolean fallback chains, evaluated when
the two explicit flags are absent or boolean: the chain collapses to the
boolean disjunction of the four conditions. -/
theorem boolChain_eq (x y : Option JVal) (c₃ c₄ : Bool)
    (h1 : boolish x = true) (h2 : boolish y = true) :
    jsOr x (jsOr y (jsOr (some (.bool c₃)) (jsOr (some (.bool c₄)) (some (.bool false)))))
      = some (.bool (truthyOpt x || truthyOpt y || c₃ || c₄)) := by
  rcases boolish_elim x h1 with rfl | ⟨bx, rfl⟩
  · rcases boolish_elim y h2 with rfl | ⟨b₂, rfl⟩
    · cases c₃ <;> cases c₄ <;> simp [jsOr, truthy, truthyOpt]
    · cases b₂ <;> cases c₃ <;> cases c₄ <;> simp [jsOr, truthy, truthyOpt]
  · rcases boolish_elim y h2 with rfl | ⟨b₂, rfl⟩
    · cases bx <;> cases c₃ <;> cases c₄ <;> simp [jsOr, truthy, truthyOpt]
    · cases bx <;> cases b₂ <;> cases c₃ <;> cases c₄ <;> simp [jsOr, truthy, truthyOpt]

theorem cleanVal_bool (b : Bool) : cleanVal (some (.bool b)) = some (.bool b) := by
  simp [cleanVal]

/-! ### Claims -/

/-- Claim C4: for every input, calling `getAssignment` on a tracker whose
`initialized` flag is false returns `assignment: null`,
`assignmentDetails: null` and `initialized: false`, leaves the state
untouched, and never throws (the embedding is a total function whose
early return produces exactly this shape). -/
theorem c4_uninitialized_resolve (s : EppoState) (flagKey userId : String)
    (attrs : JObj) (prov : Provider) (now : String)
    (h : s.initialized = false) :
    (getAssignment s flagKey userId attrs prov now).1.assignment = none ∧
    (getAssignment s flagKey userId attrs prov now).1.assignmentDetails = none ∧
    (getAssignment s flagKey userId attrs prov now).1.initializedField = some false ∧
    (getAssignment s flagKey userId attrs prov now).2 = s := by
  simp [getAssignment, h]

theorem c4_witness :
    (getAssignment initialEppoState "flag-x" "user-1" [] ⟨[], .ok none⟩ "t0").1.assignment = none ∧
    (getAssignment initialEppoState "flag-x" "user-1" [] ⟨[], .ok none⟩ "t0").1.assignmentDetails = none ∧
    (getAssignment initialEppoState "flag-x" "user-1" [] ⟨[], .ok none⟩ "t0").1.initializedField = some false ∧
    (getAssignment initialEppoState "flag-x" "user-1" [] ⟨[], .ok none⟩ "t0").2 = initialEppoState :=
  c4_uninitialized_resolve initialEppoState "flag-x" "user-1" [] ⟨[], .ok none⟩ "t0" rfl

/-- Claim C5: `getEnrichedUserAttributes` never raises (it is a total
function of the lookup outcome), and when the audience source is
unconfigured, fails with any status, or times out (a failure without a
response status), its result is exactly the fallback-path output for the
same existing attributes, identical to the not-found result. -/
theorem c5_enrich_failure_falls_back (a : JObj) (status : Option Nat) (msg : String) :
    getEnrichedUserAttributes .unconfigured a = fallbackEnrich a ∧
    getEnrichedUserAttributes (.failure status msg) a = fallbackEnrich a ∧
    getEnrichedUserAttributes (.failure none msg) a
      = getEnrichedUserAttributes .unconfigured a := by
  refine ⟨rfl, ?_, rfl⟩
  by_cases h : status = some 404 <;>
    simp [getEnrichedUserAttributes, getUserAudiences, h]

/-- Claim C6 (amended): in the fallback branch the three flags are the
inclusive-OR of their four conditions whenever the explicit flag
attributes are absent or boolean; a truthy non-boolean explicit flag is
passed through verbatim instead of being normalized to `true` (see the
counterexample). -/
theorem c6_fallback_boolean_flags (a : JObj)
    (hp : boolish (a.getv "premium_subscriber") = true)
    (hip : boolish (a.getv "isPremium") = true)
    (hhv : boolish (a.getv "high_value_customer") = true)
    (hihv : boolish (a.getv "isHighValue") = true)
    (har : boolish (a.getv "at_risk_churn") = true)
    (hiar : boolish (a.getv "isAtRisk") = true) :
    JObj.getv (fallbackEnrich a) "premium_subscriber"
      = some (.bool (truthyOpt (a.getv "premium_subscriber")
          || truthyOpt (a.getv "isPremium")
          || decide (a.getv "subscription_tier" = some (.str "premium"))
          || decide (a.getv "subscriptionTier" = some (.str "premium")))) ∧
    JObj.getv (fallbackEnrich a) "high_value_customer"
      = some (.bool (truthyOpt (a.getv "high_value_customer")
          || truthyOpt (a.getv "isHighValue")
          || decide (a.getv "subscription_tier" = some (.str "premium"))
          || decide (a.getv "subscriptionTier" = some (.str "premium")))) ∧
    JObj.getv (fallbackEnrich a) "at_risk_churn"
      = some (.bool (truthyOpt (a.getv "at_risk_churn")
          || truthyOpt (a.getv "isAtRisk")
          || decide (a.getv "subscription_tier" = some (.str "free"))
          || decide (a.getv "subscriptionTier" = some (.str "free")))) := by
  refine ⟨?_, ?_, ?_⟩
  · rw [fe_getv_ps, psChain, boolChain_eq _ _ _ _ hp hip, cleanVal_bool]
  · rw [fe_getv_hv, hvChain, boolChain_eq _ _ _ _ hhv hihv, cleanVal_bool]
  · rw [fe_getv_ar, arChain, boolChain_eq _ _ _ _ har hiar, cleanVal_bool]

theorem c6_witness :
    JObj.getv (fallbackEnrich [("subscriptionTier", some (.str "premium"))])
      "premium_subscriber" = some (.bool true) ∧
    JObj.getv (fallbackEnrich [("subscription_tier", some (.str "free"))])
      "at_risk_churn" = some (.bool true) ∧
    JObj.getv (fallbackEnrich [("subscription_tier", some (.str "free"))])
      "premium_subscriber" = some (.bool false) := by
  have h1 := c6_fallback_boolean_flags [("subscriptionTier", some (.str "premium"))]
    (by decide) (by decide) (by decide) (by decide) (by decide) (by decide)
  have h2 := c6_fallback_boolean_flags [("subscription_tier", some (.str "free"))]
    (by decide) (by decide) (by decide) (by decide) (by decide) (by decide)
  exact ⟨h1.1, h2.2.2, h2.1⟩

theorem c6_counterexample :
    JObj.getv (fallbackEnrich [("isPremium", some (.num 2))])
      "premium_subscriber" = some (.num 2) ∧ JVal.num 2 ≠ JVal.bool true := by
  decide

/-- Claim C7 (amended): on a failing outbound call with configured
credentials, `triggerCampaign` re-raises the normalized request error
annotated with the upstream status (or the word unknown); `sendMessage`,
`trackEvent`, `updateUserAttributes` and `triggerCanvas` log and re-raise
the raw transport error instead of a normalized one (see the
counterexample). -/
theorem c7_dispatch_error_handling (cfg : BrazeConfig) (cid : Option String)
    (e : AxiosErr)
    (h1 : strFalsy cfg.apiKey = false) (h2 : strFalsy cfg.restEndpoint = false)
    (h3 : strFalsy cid = false) :
    triggerCampaign cfg cid (.error e)
      = .error (.normalized ("Request failed with status code " ++
          (match e.response with
           | some resp => toString resp.status
           | none => "unknown"))) ∧
    sendMessage cfg (.error e) = .error (.raw e) ∧
    trackEvent cfg (.error e) = .error (.raw e) ∧
    updateUserAttributes cfg (.error e) = .error (.raw e) ∧
    triggerCanvas cfg (.error e) = .error (.raw e) := by
  refine ⟨?_, ?_, ?_, ?_, ?_⟩ <;>
    simp [triggerCampaign, sendMessage, trackEvent, updateUserAttributes,
      triggerCanvas, h1, h2, h3]

theorem c7_witness :
    triggerCampaign ⟨some "key", some "endpoint", some "app"⟩ (some "campaign-1")
      (.error ⟨some ⟨.null, 500⟩, "boom"⟩)
      = .error (.normalized "Request failed with status code 500") ∧
    sendMessage ⟨some "key", some "endpoint", some "app"⟩
      (.error ⟨some ⟨.null, 500⟩, "boom"⟩)
      = .error (.raw ⟨some ⟨.null, 500⟩, "boom"⟩) := by
  have h := c7_dispatch_error_handling ⟨some "key", some "endpoint", some "app"⟩
    (some "campaign-1") ⟨some ⟨.null, 500⟩, "boom"⟩ rfl rfl rfl
  exact ⟨h.1, h.2.1⟩

theorem c7_counterexample :
    (thrownOf (sendMessage ⟨some "key", some "endpoint", some "app"⟩
      (.error ⟨some ⟨.null, 500⟩, "Request failed with status code 500"⟩))).map
        isNormalizedErr = some false := rfl

/-- Claim C8 (amended): in the fallback branch, `subscription_tier` and
`user_segment` are the first truthy entry of their `||` chains (a present
falsy value such as the empty string is skipped, and the key is stripped
when the chain ends undefined or null), while `country` and `device_type`
are passed through verbatim whenever present and non-null, including
falsy values (see the counterexample for the empty-string tier). -/
theorem c8_passthrough_fields (a : JObj) :
    JObj.getv (fallbackEnrich a) "subscription_tier" = cleanVal (tierChain a) ∧
    JObj.getv (fallbackEnrich a) "user_segment" = cleanVal (segChain a) ∧
    JObj.getv (fallbackEnrich a) "country" = cleanVal (a.getv "country") ∧
    JObj.getv (fallbackEnrich a) "device_type" = cleanVal (a.getv "device_type") :=
  ⟨fe_getv_tier a, fe_getv_segment a, fe_getv_country a, fe_getv_device a⟩

theorem c8_counterexample :
    JObj.getv (fallbackEnrich [("subscription_tier", some (.str ""))])
      "subscription_tier" = none ∧
    JObj.getv (fallbackEnrich [("country", some (.str ""))])
      "country" = some (.str "") := by
  decide

/-- Claim C9: the typed variants return the caller default whenever the
tracker is uninitialized or the typed SDK call throws; they leave the
service state (in particular the assignment cache) unchanged, and their
result does not depend on the cache contents. -/
theorem c9_typed_variants (s : EppoState) (flagKey userId : String) (attrs : JObj)
    (db : Bool) (dn : Int) (pb : Except String Bool) (pn : Except String Int)
    (eb en : String) (m : Cache) :
    (s.initialized = false →
      getBooleanAssignment s flagKey userId attrs db pb = (db, s) ∧
      getNumericAssignment s flagKey userId attrs dn pn = (dn, s)) ∧
    getBooleanAssignment s flagKey userId attrs db (.error eb) = (db, s) ∧
    getNumericAssignment s flagKey userId attrs dn (.error en) = (dn, s) ∧
    (getBooleanAssignment s flagKey userId attrs db pb).2 = s ∧
    (getNumericAssignment s flagKey userId attrs dn pn).2 = s ∧
    (getBooleanAssignment { s with recentAssignments := m } flagKey userId attrs db pb).1
      = (getBooleanAssignment s flagKey userId attrs db pb).1 ∧
    (getNumericAssignment { s with recentAssignments := m } flagKey userId attrs dn pn).1
      = (getNumericAssignment s flagKey userId attrs dn pn).1 := by
  constructor
  · intro h
    constructor <;> simp [getBooleanAssignment, getNumericAssignment, h]
  refine ⟨?_, ?_, ?_, ?_, ?_, ?_⟩
  · by_cases hc : (!s.hasClient || !s.initialized) = true <;>
      simp [getBooleanAssignment, hc]
  · by_cases hc : (!s.hasClient || !s.initialized) = true <;>
      simp [getNumericAssignment, hc]
  · by_cases hc : (!s.hasClient || !s.initialized) = true <;> cases pb <;>
      simp [getBooleanAssignment, hc]
  · by_cases hc : (!s.hasClient || !s.initialized) = true <;> cases pn <;>
      simp [getNumericAssignment, hc]
  · by_cases hc : (!s.hasClient || !s.initialized) = true <;> cases pb <;>
      simp [getBooleanAssignment, hc]
  · by_cases hc : (!s.hasClient || !s.initialized) = true <;> cases pn <;>
      simp [getNumericAssignment, hc]

theorem c9_witness :
    getBooleanAssignment initialEppoState "flag-x" "user-1" [] true (.ok false)
      = (true, initialEppoState) ∧
    getNumericAssignment initialEppoState "flag-x" "user-1" [] 7 (.ok 3)
      = (7, initialEppoState) :=
  (c9_typed_variants initialEppoState "flag-x" "user-1" [] true 7 (.ok false)
    (.ok 3) "oops" "oops" []).1 rfl

theorem hasK_eq_false_of_not_mem {β : Type} (m : List (String × β)) (k : String)
    (h : k ∉ m.map Prod.fst) : hasK m k = false := by
  induction m with
  | nil => rfl
  | cons q t ih =>
    rw [List.map_cons, List.mem_cons, not_or] at h
    rw [hasK, if_neg (fun he => h.1 he.symm)]
    exact ih h.2

theorem logAssignment_currentRequest (s : EppoState) (ev : EppoEvent) (now : String) :
    (logAssignment s ev now).currentRequest = s.currentRequest := rfl

theorem runEvents_currentRequest (events : List EppoEvent) (now : String) :
    ∀ s : EppoState, (runEvents s events now).currentRequest = s.currentRequest := by
  induction events with
  | nil => intro s; rfl
  | cons e t ih =>
    intro s
    rw [runEvents, List.foldl_cons]
    exact ih (logAssignment s e now)

/-- Claim C3 (amended): the request context is stored immediately before
the provider call and survives every event-sink invocation; when the
provider call returns normally the context is null again by the time
`getAssignment` returns; when the provider call throws, the catch path
returns without clearing the slot, so the context stays set to the
request triple (see the counterexample). -/
theorem c3_pending_context (s : EppoState) (flagKey userId : String)
    (attrs : JObj) (prov : Provider) (now : String)
    (hc : s.hasClient = true) (hi : s.initialized = true) :
    (providerEntryState s flagKey userId attrs).currentRequest
      = some ⟨flagKey, userId, attrs⟩ ∧
    (runEvents (providerEntryState s flagKey userId attrs) prov.events now).currentRequest
      = some ⟨flagKey, userId, attrs⟩ ∧
    (∀ a, prov.result = .ok a →
      (getAssignment s flagKey userId attrs prov now).2.currentRequest = none) ∧
    (∀ e, prov.result = .error e →
      (getAssignment s flagKey userId attrs prov now).2.currentRequest
        = some ⟨flagKey, userId, attrs⟩) := by
  refine ⟨rfl, by rw [runEvents_currentRequest]; rfl, ?_, ?_⟩
  · intro a ha
    rcases prov with ⟨events, result⟩
    have ha' : result = .ok a := ha
    subst ha'
    simp [getAssignment, hc, hi]
  · intro e he
    rcases prov with ⟨events, result⟩
    have he' : result = .error e := he
    subst he'
    simp only [getAssignment, hc, hi, Bool.not_true, Bool.or_self,
      Bool.false_eq_true, if_false]
    rw [runEvents_currentRequest]
    rfl

theorem c3_counterexample :
    (getAssignment ⟨true, true, [], false, none⟩ "flag-x" "user-1" []
      ⟨[], .error "network error"⟩ "t0").2.currentRequest
      = some ⟨"flag-x", "user-1", []⟩ ∧
    (some (⟨"flag-x", "user-1", []⟩ : ReqCtx) ≠ none) := by
  decide

theorem c3_witness :
    (getAssignment ⟨true, true, [], false, none⟩ "flag-x" "user-1" []
      ⟨[], .ok (some "treatment")⟩ "t0").2.currentRequest = none :=
  (c3_pending_context ⟨true, true, [], false, none⟩ "flag-x" "user-1" []
    ⟨[], .ok (some "treatment")⟩ "t0" rfl rfl).2.2.1 (some "treatment") rfl

/-- Claim C1: on an initialized tracker, when after the provider call the
cache has no entry under `userId:flagKey` but has one under
`userId:undefined`, `getAssignment` returns that entry with its flag key
corrected, re-stores it under the correct key, and deletes the stale
key. -/
theorem c1_undefined_key_reconciliation (s : EppoState) (flagKey userId : String)
    (attrs : JObj) (prov : Provider) (a : Option String) (now : String)
    (entry : StoredAssignment)
    (hc : s.hasClient = true) (hi : s.initialized = true)
    (hr : prov.result = .ok a)
    (h1 : aget (runEvents (providerEntryState s flagKey userId attrs)
        prov.events now).recentAssignments (lookupKey userId flagKey) = none)
    (h2 : aget (runEvents (providerEntryState s flagKey userId attrs)
        prov.events now).recentAssignments (undefinedKey userId) = some entry) :
    (getAssignment s flagKey userId attrs prov now).1.assignmentDetails
      = some (.stored { entry with flagKey := flagKey }) ∧
    aget (getAssignment s flagKey userId attrs prov now).2.recentAssignments
      (lookupKey userId flagKey) = some { entry with flagKey := flagKey } ∧
    aget (getAssignment s flagKey userId attrs prov now).2.recentAssignments
      (undefinedKey userId) = none := by
  have hne : lookupKey userId flagKey ≠ undefinedKey userId := by
    intro he
    rw [he, h2] at h1
    cases h1
  rcases prov with ⟨events, result⟩
  have hr' : result = .ok a := hr
  subst hr'
  simp only [getAssignment, hc, hi, Bool.not_true, Bool.or_self,
    Bool.false_eq_true, if_false] at h1 h2 ⊢
  simp only [h1, h2]
  refine ⟨by trivial, ?_, ?_⟩
  · rw [aget_adel_ne _ _ _ hne, aget_aset_self]
  · exact aget_adel_self _ _

theorem c1_witness :
    (getAssignment ⟨true, true, [("user-1:undefined", ⟨some "user-1", "undefined", "t1", []⟩)], false, none⟩
      "flag-x" "user-1" [] ⟨[], .ok (some "treatment")⟩ "t0").1.assignmentDetails
      = some (.stored ⟨some "user-1", "flag-x", "t1", []⟩) ∧
    aget (getAssignment ⟨true, true, [("user-1:undefined", ⟨some "user-1", "undefined", "t1", []⟩)], false, none⟩
      "flag-x" "user-1" [] ⟨[], .ok (some "treatment")⟩ "t0").2.recentAssignments
      (lookupKey "user-1" "flag-x") = some ⟨some "user-1", "flag-x", "t1", []⟩ ∧
    aget (getAssignment ⟨true, true, [("user-1:undefined", ⟨some "user-1", "undefined", "t1", []⟩)], false, none⟩
      "flag-x" "user-1" [] ⟨[], .ok (some "treatment")⟩ "t0").2.recentAssignments
      (undefinedKey "user-1") = none :=
  c1_undefined_key_reconciliation
    ⟨true, true, [("user-1:undefined", ⟨some "user-1", "undefined", "t1", []⟩)], false, none⟩
    "flag-x" "user-1" [] ⟨[], .ok (some "treatment")⟩ (some "treatment") "t0"
    ⟨some "user-1", "undefined", "t1", []⟩ rfl rfl rfl (by decide) (by decide)

/-- Claim C2: the event sink keeps the cache at no more than 100 entries
(the bound is preserved by every sink invocation starting from the empty
constructor state); when an insertion pushes the size past 100 the entry
removed is exactly the oldest-inserted key, independent of reads (the
concrete scenario inserts A, B, C, reads A, inserts past capacity, and A
is the entry evicted, so the policy is FIFO and not LRU). -/
theorem c2_cache_capacity_fifo :
    (∀ (s : EppoState) (ev : EppoEvent) (now : String),
      s.recentAssignments.length ≤ 100 →
      (logAssignment s ev now).recentAssignments.length ≤ 100) ∧
    (∀ (s : EppoState) (ev : EppoEvent) (now : String),
      (s.recentAssignments.map Prod.fst).Nodup →
      aget s.recentAssignments (storeKey s ev) = none →
      s.recentAssignments.length = 100 →
      (logAssignment s ev now).recentAssignments
        = s.recentAssignments.tail ++ [(storeKey s ev, storeRec s ev now)]) ∧
    (initialEppoState.recentAssignments.length = 0 ∧
     scReadA.isSome = true ∧
     aget scFinal.recentAssignments "u0:f0" = none ∧
     (aget scFinal.recentAssignments "u1:f1").isSome = true ∧
     (aget scFinal.recentAssignments "u2:f2").isSome = true ∧
     scFinal.recentAssignments.length = 100) := by
  refine ⟨?_, ?_, ?_⟩
  · intro s ev now h
    show (evict (aset s.recentAssignments (storeKey s ev) (storeRec s ev now))).length ≤ 100
    generalize s.recentAssignments = m at h ⊢
    generalize storeKey s ev = k
    generalize storeRec s ev now = v
    cases hk : hasK m k
    · rw [aset_eq_append m k v hk, evict.eq_def]
      by_cases hlen : (m ++ [(k, v)]).length > 100
      · rw [if_pos hlen]
        rcases m with _ | ⟨q, t⟩
        · simp at hlen
        · rw [List.cons_append]
          show (adel (q :: (t ++ [(k, v)])) q.1).length ≤ 100
          rw [adel, if_pos rfl]
          have h1 := length_adel_le (t ++ [(k, v)]) q.1
          have h2 : (t ++ [(k, v)]).length = t.length + 1 := by simp
          have h3 : t.length + 1 ≤ 100 := by simpa using h
          omega
      · rw [if_neg hlen]
        simp only [List.length_append, List.length_singleton] at hlen ⊢
        omega
    · rw [aset, if_pos hk, evict.eq_def]
      have hlen : ¬ ((m.map fun p => if p.1 = k then (k, v) else p).length > 100) := by
        rw [List.length_map]
        omega
      rw [if_neg hlen, List.length_map]
      exact h
  · intro s ev now hnd hfresh hlen
    show evict (aset s.recentAssignments (storeKey s ev) (storeRec s ev now))
      = s.recentAssignments.tail ++ [(storeKey s ev, storeRec s ev now)]
    have hk : hasK s.recentAssignments (storeKey s ev) = false :=
      hasK_false_of_aget_none _ _ hfresh
    generalize s.recentAssignments = m at hnd hk hlen ⊢
    generalize storeKey s ev = k at *
    generalize storeRec s ev now = v
    rw [aset_eq_append _ _ _ hk, evict.eq_def]
    rcases m with _ | ⟨q, t⟩
    · simp at hlen
    · have hq : q.1 ∉ t.map Prod.fst := by
        rw [List.map_cons, List.nodup_cons] at hnd
        exact hnd.1
      have hlen' : ((q :: t) ++ [(k, v)]).length > 100 := by
        simp only [List.length_append, List.length_cons, List.length_singleton]
        simp only [List.length_cons] at hlen
        omega
      rw [if_pos hlen', List.cons_append]
      show adel (q :: (t ++ [(k, v)])) q.1 = (q :: t).tail ++ [(k, v)]
      rw [adel, if_pos rfl, adel_append]
      have hkq : ¬ (k = q.1) := by
        intro he
        rw [hasK, if_pos he.symm] at hk
        cases hk
      rw [adel_eq_self t q.1 (hasK_eq_false_of_not_mem t q.1 hq)]
      rw [adel, if_neg hkq]
      rfl
  · refine ⟨rfl, ?_, ?_, ?_, ?_, ?_⟩ <;> decide

theorem c2_witness :
    (logAssignment ⟨true, true, [], false, none⟩ (scEvent 0) "now").recentAssignments.length ≤ 100 ∧
    (logAssignment
        ⟨true, true,
         (List.range 100).map (fun i => ("u" ++ toString i ++ ":fX", (⟨none, "fX", "ts", []⟩ : StoredAssignment))),
         false, none⟩ (scEvent 200) "now").recentAssignments
      = ((List.range 100).map (fun i => ("u" ++ toString i ++ ":fX", (⟨none, "fX", "ts", []⟩ : StoredAssignment)))).tail
        ++ [("u200:f200", ⟨some "u200", "f200", "ts", []⟩)] :=
  ⟨c2_cache_capacity_fifo.1 ⟨true, true, [], false, none⟩ (scEvent 0) "now" (by decide),
   c2_cache_capacity_fifo.2.1
     ⟨true, true,
      (List.range 100).map (fun i => ("u" ++ toString i ++ ":fX", (⟨none, "fX", "ts", []⟩ : StoredAssignment))),
      false, none⟩ (scEvent 200) "now" (by decide) (by decide) (by decide)⟩

/-- Claim C10: an event with neither flag key nor subject arriving while
no request context is live is stored under the literal key
`unknown:unknown`; for every lookup with a user id and flag key other
than the literal pair (unknown, unknown) both lookup keys differ from
that literal, so a resolve call neither returns nor reconciles nor
disturbs such a record (third part: on a cache holding only the unknown
record, resolve returns the synthesized fallback details and leaves the
record in place). -/
theorem c10_unknown_key_isolation :
    (∀ (s : EppoState) (ev : EppoEvent) (now : String),
      ev.flagKey = none → ev.subject = none → s.currentRequest = none →
      storeKey s ev = "unknown:unknown" ∧
      (logAssignment s ev now).recentAssignments
        = evict (aset s.recentAssignments "unknown:unknown" (storeRec s ev now))) ∧
    (∀ userId flagKey : String, ¬(userId = "unknown" ∧ flagKey = "unknown") →
      lookupKey userId flagKey ≠ "unknown:unknown" ∧
      undefinedKey userId ≠ "unknown:unknown") ∧
    (∀ (r : StoredAssignment) (userId flagKey : String) (a : Option String)
        (attrs : JObj) (now : String),
      ¬(userId = "unknown" ∧ flagKey = "unknown") →
      (getAssignment ⟨true, true, [("unknown:unknown", r)], false, none⟩
          flagKey userId attrs ⟨[], .ok a⟩ now).1.assignmentDetails
        = some (.fallback ⟨flagKey, none, a, userId, none, none, now, false, 1,
            lookupKey userId flagKey,
            "Assignment logger did not fire - may be cached or default assignment"⟩) ∧
      (getAssignment ⟨true, true, [("unknown:unknown", r)], false, none⟩
          flagKey userId attrs ⟨[], .ok a⟩ now).2.recentAssignments
        = [("unknown:unknown", r)]) := by
  refine ⟨?_, ?_, ?_⟩
  · intro s ev now hf hs hcr
    have hk : storeKey s ev = "unknown:unknown" := by
      rw [storeKey, effSubject, effFlagKey, hf, hs, hcr]
      rfl
    exact ⟨hk, by simp [logAssignment, hk]⟩
  · intro userId flagKey h
    exact ⟨lookupKey_ne_unknown userId flagKey h, undefinedKey_ne_unknown userId⟩
  · intro r userId flagKey a attrs now h
    have e1 : aget [("unknown:unknown", r)] (lookupKey userId flagKey) = none := by
      rw [aget, if_neg (fun he => lookupKey_ne_unknown userId flagKey h he.symm)]
      rfl
    have e2 : aget [("unknown:unknown", r)] (undefinedKey userId) = none := by
      rw [aget, if_neg (fun he => undefinedKey_ne_unknown userId he.symm)]
      rfl
    constructor <;>
      simp [getAssignment, runEvents, providerEntryState, e1, e2]

theorem c10_witness :
    storeKey ⟨true, true, [], false, none⟩ ⟨none, none, some "ts", []⟩ = "unknown:unknown" ∧
    lookupKey "user-1" "flag-x" ≠ "unknown:unknown" ∧
    undefinedKey "user-1" ≠ "unknown:unknown" ∧
    (getAssignment ⟨true, true, [("unknown:unknown", ⟨none, "unknown", "ts", []⟩)], false, none⟩
        "flag-x" "user-1" [] ⟨[], .ok none⟩ "t0").2.recentAssignments
      = [("unknown:unknown", ⟨none, "unknown", "ts", []⟩)] :=
  ⟨(c10_unknown_key_isolation.1 ⟨true, true, [], false, none⟩ ⟨none, none, some "ts", []⟩ "now"
      rfl rfl rfl).1,
   (c10_unknown_key_isolation.2.1 "user-1" "flag-x" (by decide)).1,
   (c10_unknown_key_isolation.2.1 "user-1" "flag-x" (by decide)).2,
   (c10_unknown_key_isolation.2.2 ⟨none, "unknown", "ts", []⟩ "user-1" "flag-x" none [] "t0"
      (by decide)).2⟩
